import Mathlib

/-!
Verification of the blsforme core (src/blsforme/src/file_utils.rs and
src/blsforme/src/entry.rs) against its natural-language specification.

The Rust code is shallowly embedded: paths become lists of (already
normalised) components, the filesystem becomes an explicit record of pure
functions describing the outcome of each I/O primitive the code performs,
and the stateful blake3 hasher becomes explicitly threaded state.
-/

namespace Blsforme

/-- A filesystem path, as an already-parsed list of normal components
(Rust PathBuf). Joining appends a component. -/
abbrev PathBuf := List String

/-- Rust Path.file_name: the last normal component, none for an empty
(root) path or a path terminating in a parent-directory component. -/
def PathBuf.file_name (p : PathBuf) : Option String :=
  match p.getLast? with
  | some s => if s = ".." then none else some s
  | none => none

/-- File type as distinguished by Metadata.file_type in the comparison
(regular file, symlink, directory). -/
inductive FileType
  | regular
  | symlink
  | directory
deriving DecidableEq

/-- The metadata the comparator inspects: MetadataExt.size and file_type. -/
structure Metadata where
  size : Nat
  ftype : FileType
deriving DecidableEq

/-- Outcomes of the I/O primitives used by files_identical / changed_files,
as a pure record: stat models File.open followed by Metadata retrieval
(none = either step failed), readBytes models the memory-mapped read
feeding the hasher (none = the mapping failed, in which case blake3
performs no update), and digest models the blake3 finalisation over the
bytes accumulated in the hasher. -/
structure FS where
  stat : PathBuf → Option Metadata
  readBytes : PathBuf → Option (List Nat)
  digest : List Nat → Nat

/-- The blake3 hasher state: the bytes fed to it since the last reset. -/
structure Hasher where
  acc : List Nat
deriving DecidableEq

/-- blake3 Hasher.new. -/
def Hasher.new : Hasher := ⟨[]⟩

/-- blake3 Hasher.update_mmap_rayon on successfully mapped bytes. -/
def Hasher.update (h : Hasher) (bytes : List Nat) : Hasher := ⟨h.acc ++ bytes⟩

/-- blake3 Hasher.reset. -/
def Hasher.reset : Hasher := ⟨[]⟩

/-- files_identical (src/blsforme/src/file_utils.rs lines 40-58): open and
stat both paths (failure is an error), report false on size or file-type
mismatch, otherwise digest both contents with the shared hasher, resetting
it after each finalise. The returned hasher is the state the mutable
borrow leaves behind, on the error paths included. -/
def files_identical (fs : FS) (hasher : Hasher) (a b : PathBuf) :
    Except Unit Bool × Hasher :=
  match fs.stat a with
  | none => (Except.error (), hasher)
  | some fi_a_m =>
    match fs.stat b with
    | none => (Except.error (), hasher)
    | some fi_b_m =>
      if fi_a_m.size ≠ fi_b_m.size ∨ fi_a_m.ftype ≠ fi_b_m.ftype then
        (Except.ok false, hasher)
      else
        match fs.readBytes a with
        | none => (Except.error (), hasher)
        | some bytes_a =>
          let result_a := fs.digest (hasher.update bytes_a).acc
          let h1 := Hasher.reset
          match fs.readBytes b with
          | none => (Except.error (), h1)
          | some bytes_b =>
            let result_b := fs.digest (h1.update bytes_b).acc
            let h2 := Hasher.reset
            (Except.ok (result_a == result_b), h2)

/-- The loop body of changed_files: iterate over the pairs threading the
shared hasher, keeping a pair when the comparison says the files differ or
when it errors, dropping it when they are identical. -/
def changedFilesGo (fs : FS) (hasher : Hasher) :
    List (PathBuf × PathBuf) → List (PathBuf × PathBuf)
  | [] => []
  | (source, dest) :: rest =>
    match files_identical fs hasher source dest with
    | (Except.ok true, h) => changedFilesGo fs h rest
    | (Except.ok false, h) => (source, dest) :: changedFilesGo fs h rest
    | (Except.error _, h) => (source, dest) :: changedFilesGo fs h rest

/-- changed_files (src/blsforme/src/file_utils.rs lines 68-84): build one
hasher, then filter the pairs to those files_identical reports as
differing, treating a comparison error as differing. -/
def changed_files (fs : FS) (files : List (PathBuf × PathBuf)) :
    List (PathBuf × PathBuf) :=
  changedFilesGo fs Hasher.new files

/-- The per-pair verdict of files_identical when started from a fresh
hasher: true exactly when the comparison succeeds and reports identical. -/
def pairIdentical (fs : FS) (p : PathBuf × PathBuf) : Bool :=
  match files_identical fs Hasher.new p.1 p.2 with
  | (Except.ok true, _) => true
  | _ => false

/-! Embedding of src/blsforme/src/entry.rs: the Entry aggregate and the
naming operations, plus the cmdline snippet loader. -/

/-- OsRelease identifying strings, supplied externally (crate::OsRelease). -/
structure OsRelease where
  name : String
  id : String

/-- The two boot-entry naming conventions (crate::Schema). Each Rust
variant carries an os_release (the Legacy variant has further fields the
naming code ignores, matched with a rest pattern). -/
inductive Schema
  | legacy (os_release : OsRelease)
  | blsforme (os_release : OsRelease)

/-- A discovered kernel (crate::Kernel): the fields the entry code reads. -/
structure Kernel where
  version : String
  image : PathBuf

/-- The kind of an auxiliary file (crate::AuxiliaryKind): InitRD or any
other kind, which the naming code treats uniformly via a wildcard arm. -/
inductive AuxiliaryKind
  | initRD
  | other
deriving DecidableEq

/-- An auxiliary file attached to a kernel (crate::AuxiliaryFile). -/
structure AuxiliaryFile where
  path : PathBuf
  kind : AuxiliaryKind

/-- A cmdline entry found in the cmdline.d directory (entry.rs lines
10-17): literal file name and verbatim text content. -/
structure CmdlineEntry where
  name : String
  snippet : String

/-- An Entry (entry.rs lines 21-28): a kernel reference, an optional
alternate system root, and the loaded cmdline entries. -/
structure Entry where
  kernel : Kernel
  sysroot : Option PathBuf
  cmdline : List CmdlineEntry

/-- Entry::new (entry.rs lines 32-38). -/
def Entry.new (kernel : Kernel) : Entry :=
  { kernel := kernel, sysroot := none, cmdline := [] }

/-- Entry::with_sysroot (entry.rs lines 63-68): a struct update setting
sysroot and keeping every other field; the Rust body performs no I/O, so
the embedding takes no filesystem argument. -/
def Entry.with_sysroot (e : Entry) (sysroot : PathBuf) : Entry :=
  { e with sysroot := some sysroot }

/-- Entry::id (entry.rs lines 71-78): pick name (Legacy) or id (Blsforme)
from the os_release, then format "{id}-{version}". -/
def Entry.id (e : Entry) (schema : Schema) : String :=
  let i := match schema with
    | Schema.legacy os_release => os_release.name
    | Schema.blsforme os_release => os_release.id
  i ++ "-" ++ e.kernel.version

/-- Entry::installed_kernel_name (entry.rs lines 82-92). -/
def Entry.installed_kernel_name (e : Entry) (schema : Schema) :
    Option String :=
  match schema with
  | Schema.legacy _ =>
    e.kernel.image.file_name.map (fun filename => "kernel-" ++ filename)
  | Schema.blsforme _ => some (e.kernel.version ++ "/vmlinuz")

/-- Entry::installed_asset_name (entry.rs lines 96-114). The Blsforme arm
extracts the file name first (early return of none), then matches the
kind; the Legacy arm matches the kind first. -/
def Entry.installed_asset_name (e : Entry) (schema : Schema)
    (asset : AuxiliaryFile) : Option String :=
  match schema with
  | Schema.legacy _ =>
    match asset.kind with
    | AuxiliaryKind.initRD =>
      asset.path.file_name.map (fun filename => "initrd-" ++ filename)
    | _ => none
  | Schema.blsforme _ =>
    match asset.path.file_name with
    | none => none
    | some filename =>
      match asset.kind with
      | AuxiliaryKind.initRD => some (e.kernel.version ++ "/" ++ filename)
      | _ => none

/-- The Configuration as consumed by load_cmdline_snippets: config.root
resolves to a path. -/
structure Configuration where
  root : PathBuf

/-- Outcomes of the I/O primitives used by Entry::load_cmdline_snippets.
pathExists models Path.exists; read_dir models std::fs::read_dir
(wholesale failure, or a list of per-child results, each child either an
enumeration error or its decoded file name — DirEntry.path is the
directory joined with that name); cmdline_snippet is the file read. -/
structure EntryFS where
  pathExists : PathBuf → Bool
  read_dir : PathBuf → Except Unit (List (Except Unit String))
  /-- Modelled from the spec: crate::file_utils::cmdline_snippet is called
  by entry.rs but is absent from the sources; per the spec it reads the
  full text content of the file verbatim, any read failure propagating as
  an I/O error. -/
  cmdline_snippet : PathBuf → Except Unit String

/-- The cmdline.d directory resolved by load_cmdline_snippets: the
sysroot of the entry when set, else the configured root, joined with
usr/lib/kernel/cmdline.d (entry.rs lines 42-43). -/
def cmdlineDir (config : Configuration) (sysopt : Option PathBuf) : PathBuf :=
  (sysopt.getD config.root) ++ ["usr", "lib", "kernel", "cmdline.d"]

/-- The for-loop of load_cmdline_snippets (entry.rs lines 51-56): stop at
the first child that fails to enumerate or read, otherwise push a
CmdlineEntry and continue. Returns the entry state the mutable borrow
leaves behind together with the status. -/
def loadLoop (fs : EntryFS) (dir : PathBuf) :
    List (Except Unit String) → Entry → Entry × Except Unit Unit
  | [], e => (e, Except.ok ())
  | Except.error _ :: _, e => (e, Except.error ())
  | Except.ok name :: rest, e =>
    match fs.cmdline_snippet (dir ++ [name]) with
    | Except.error _ => (e, Except.error ())
    | Except.ok snippet =>
      loadLoop fs dir rest
        { e with cmdline := e.cmdline ++ [{ name := name, snippet := snippet }] }

/-- Entry::load_cmdline_snippets (entry.rs lines 41-59): resolve the
cmdline.d directory, succeed immediately when it does not exist, else
enumerate it (propagating failure) and run the loop. -/
def Entry.load_cmdline_snippets (fs : EntryFS) (config : Configuration)
    (e : Entry) : Entry × Except Unit Unit :=
  let cmdline_d := cmdlineDir config e.sysroot
  if fs.pathExists cmdline_d then
    match fs.read_dir cmdline_d with
    | Except.error _ => (e, Except.error ())
    | Except.ok entries => loadLoop fs cmdline_d entries e
  else
    (e, Except.ok ())

/-- True when one child of the directory fails: the child is an
enumeration error, or its content read fails. -/
def itemFails (fs : EntryFS) (dir : PathBuf) : Except Unit String → Bool
  | Except.error _ => true
  | Except.ok name =>
    match fs.cmdline_snippet (dir ++ [name]) with
    | Except.error _ => true
    | Except.ok _ => false

/-- True when the children of the directory cannot all be enumerated and
read: the enumeration fails wholesale, or some child fails. -/
def childFailure (fs : EntryFS) (dir : PathBuf) : Bool :=
  match fs.read_dir dir with
  | Except.error _ => true
  | Except.ok items => items.any (itemFails fs dir)

/-- The cmdline entries the loop appends: one per successfully read child
before the first failure. -/
def loopAppendix (fs : EntryFS) (dir : PathBuf) :
    List (Except Unit String) → List CmdlineEntry
  | [] => []
  | Except.error _ :: _ => []
  | Except.ok name :: rest =>
    match fs.cmdline_snippet (dir ++ [name]) with
    | Except.error _ => []
    | Except.ok snippet =>
      { name := name, snippet := snippet } :: loopAppendix fs dir rest

/-- The status the loop returns. -/
def loopStatus (fs : EntryFS) (dir : PathBuf) :
    List (Except Unit String) → Except Unit Unit
  | [] => Except.ok ()
  | Except.error _ :: _ => Except.error ()
  | Except.ok name :: rest =>
    match fs.cmdline_snippet (dir ++ [name]) with
    | Except.error _ => Except.error ()
    | Except.ok _ => loopStatus fs dir rest

/-- The cmdline entries a whole load appends, as a function of the
sysroot of the entry only. -/
def loadAppendix (fs : EntryFS) (config : Configuration)
    (sysopt : Option PathBuf) : List CmdlineEntry :=
  let dir := cmdlineDir config sysopt
  if fs.pathExists dir then
    match fs.read_dir dir with
    | Except.error _ => []
    | Except.ok items => loopAppendix fs dir items
  else []

/-- The status a whole load returns, as a function of the sysroot of the
entry only. -/
def loadStatus (fs : EntryFS) (config : Configuration)
    (sysopt : Option PathBuf) : Except Unit Unit :=
  let dir := cmdlineDir config sysopt
  if fs.pathExists dir then
    match fs.read_dir dir with
    | Except.error _ => Except.error ()
    | Except.ok items => loopStatus fs dir items
  else Except.ok ()

/-- Outcome of the directory listing join_insensitive performs: none
models a failed std::fs::read_dir; each listed child is none when the
child errored during iteration or its name failed to decode to a string
(both are dropped by the filter_map chain), else its decoded name. -/
structure JoinFS where
  read_dir : PathBuf → Option (List (Option String))

/-- PathExt::join_insensitive (src/blsforme/src/file_utils.rs lines
22-36): list the base directory best-effort, return the first existing
child name that matches the desired name after lowercase folding, else
join the desired name as given. -/
def join_insensitive (fs : JoinFS) (base : PathBuf) (path : String) :
    PathBuf :=
  match fs.read_dir base with
  | some dir =>
    match (dir.filterMap id).find?
        (fun entry => entry.toLower == path.toLower) with
    | some entry => base ++ [entry]
    | none => base ++ [path]
  | none => base ++ [path]

/-! Concrete fixtures used by the witness theorems. -/

/-- A filesystem holding two identical regular files. -/
def fsIdW : FS :=
  { stat := fun p =>
      if p = ["boot", "vmlinuz"] then
        some { size := 4, ftype := FileType.regular }
      else if p = ["efi", "vmlinuz"] then
        some { size := 4, ftype := FileType.regular }
      else none
    readBytes := fun _ => some [7, 7, 7, 7]
    digest := fun l => l.sum }

/-- A filesystem where every open/stat fails. -/
def fsErrW : FS :=
  { stat := fun _ => none
    readBytes := fun _ => none
    digest := fun l => l.sum }

/-- A directory listing with one child named "linux" and one undecodable
child under the efi directory, nothing listable elsewhere. -/
def jfsW : JoinFS :=
  { read_dir := fun p =>
      if p = ["efi"] then some [some "linux", none] else none }

/-- An entry filesystem with no cmdline.d directory anywhere. -/
def efsW : EntryFS :=
  { pathExists := fun _ => false
    read_dir := fun _ => Except.ok []
    cmdline_snippet := fun _ => Except.ok "" }

/-- A concrete entry. -/
def entW : Entry := Entry.new ⟨"6.1.0", ["boot", "vmlinuz"]⟩

/-! Helper theorems. -/

/-- Whatever happens inside files_identical, a fresh hasher comes back
fresh: every successful digest is followed by a reset and the failing
memory-map performs no update. -/
theorem files_identical_hasher_fresh (fs : FS) (a b : PathBuf) :
    (files_identical fs Hasher.new a b).2 = Hasher.new := by
  unfold files_identical
  cases fs.stat a with
  | none => rfl
  | some ma =>
    cases fs.stat b with
    | none => rfl
    | some mb =>
      by_cases hmis : ma.size ≠ mb.size ∨ ma.ftype ≠ mb.ftype
      · simp only [hmis, if_pos]
      · simp only [hmis, if_neg, not_false_eq_true]
        cases fs.readBytes a with
        | none => rfl
        | some ca =>
          cases fs.readBytes b with
          | none => rfl
          | some cb => rfl

/-- changed_files is the filter of its input by the per-pair verdict: each
pair is compared from a fresh hasher and kept exactly when not identical. -/
theorem changed_files_eq_filter (fs : FS) (files : List (PathBuf × PathBuf)) :
    changed_files fs files = files.filter (fun p => !pairIdentical fs p) := by
  unfold changed_files
  induction files with
  | nil => rfl
  | cons hd tl ih =>
    obtain ⟨source, dest⟩ := hd
    have hfresh := files_identical_hasher_fresh fs source dest
    simp only [changedFilesGo, List.filter_cons]
    rcases hres : files_identical fs Hasher.new source dest with ⟨r, h⟩
    have hh : h = Hasher.new := by rw [hres] at hfresh; exact hfresh
    subst hh
    cases r with
    | ok same =>
      cases same with
      | true =>
        have : pairIdentical fs (source, dest) = true := by
          unfold pairIdentical; rw [hres]
        simp [this, ih]
      | false =>
        have : pairIdentical fs (source, dest) = false := by
          unfold pairIdentical; rw [hres]
        simp [this, ih]
    | error e =>
      have : pairIdentical fs (source, dest) = false := by
        unfold pairIdentical; rw [hres]
      simp [this, ih]

/-- The loop leaves kernel and sysroot alone, appends exactly the
appendix to cmdline, and returns the status — all independent of the
prior cmdline of the entry. -/
theorem loadLoop_eq (fs : EntryFS) (dir : PathBuf)
    (items : List (Except Unit String)) (e : Entry) :
    loadLoop fs dir items e
      = ({ e with cmdline := e.cmdline ++ loopAppendix fs dir items },
         loopStatus fs dir items) := by
  induction items generalizing e with
  | nil => simp [loadLoop, loopAppendix, loopStatus]
  | cons item rest ih =>
    cases item with
    | error u => simp [loadLoop, loopAppendix, loopStatus]
    | ok name =>
      simp only [loadLoop, loopAppendix, loopStatus]
      cases hs : fs.cmdline_snippet (dir ++ [name]) with
      | error u => simp
      | ok snippet => simp [ih, List.append_assoc]

/-- A whole load in closed form: the entry keeps its kernel and sysroot,
gains exactly the appendix on its cmdline, and reports the status. -/
theorem load_cmdline_snippets_eq (fs : EntryFS) (config : Configuration)
    (e : Entry) :
    Entry.load_cmdline_snippets fs config e
      = ({ e with cmdline := e.cmdline ++ loadAppendix fs config e.sysroot },
         loadStatus fs config e.sysroot) := by
  unfold Entry.load_cmdline_snippets loadAppendix loadStatus
  by_cases hex : fs.pathExists (cmdlineDir config e.sysroot)
  · simp only [hex, if_pos]
    cases hrd : fs.read_dir (cmdlineDir config e.sysroot) with
    | error u => simp
    | ok items => simp [loadLoop_eq]
  · simp [hex]

/-- The loop errors exactly when some child fails. -/
theorem loopStatus_error_iff (fs : EntryFS) (dir : PathBuf)
    (items : List (Except Unit String)) :
    loopStatus fs dir items = Except.error ()
      ↔ items.any (itemFails fs dir) = true := by
  induction items with
  | nil => simp [loopStatus]
  | cons item rest ih =>
    cases item with
    | error u => simp [loopStatus, itemFails]
    | ok name =>
      simp only [loopStatus, List.any_cons, itemFails]
      cases hs : fs.cmdline_snippet (dir ++ [name]) with
      | error u => simp
      | ok snippet => simp [ih]

/-- When a filter keeps exactly one element, a first-match search finds
that element. -/
theorem find_of_filter_singleton {α : Type} (p : α → Bool) (l : List α)
    (e : α) (h : l.filter p = [e]) : l.find? p = some e := by
  induction l with
  | nil => simp at h
  | cons a t ih =>
    by_cases hp : p a
    · rw [List.filter_cons_of_pos hp] at h
      rw [List.find?_cons_of_pos _ hp]
      exact congrArg some (List.cons_eq_cons.mp h).1
    · rw [List.filter_cons_of_neg hp] at h
      rw [List.find?_cons_of_neg _ hp]
      exact ih h

/-! Claim theorems. -/

/-- C4: for every entry and schema, id returns
"{os_release.name}-{kernel.version}" under the Legacy variant and
"{os_release.id}-{kernel.version}" under the Blsforme variant. -/
theorem entry_id_spec (e : Entry) (os_release : OsRelease) :
    e.id (Schema.legacy os_release)
        = os_release.name ++ "-" ++ e.kernel.version ∧
    e.id (Schema.blsforme os_release)
        = os_release.id ++ "-" ++ e.kernel.version :=
  ⟨rfl, rfl⟩

/-- C5: installed_kernel_name returns some "kernel-{basename}" under
Legacy when the kernel image has a file name and none when it has none,
and always returns some "{version}/vmlinuz" under Blsforme. -/
theorem installed_kernel_name_spec (e : Entry) (os_release : OsRelease) :
    (∀ f, e.kernel.image.file_name = some f →
      e.installed_kernel_name (Schema.legacy os_release)
        = some ("kernel-" ++ f)) ∧
    (e.kernel.image.file_name = none →
      e.installed_kernel_name (Schema.legacy os_release) = none) ∧
    e.installed_kernel_name (Schema.blsforme os_release)
      = some (e.kernel.version ++ "/vmlinuz") := by
  refine ⟨?_, ?_, rfl⟩
  · intro f hf
    simp [Entry.installed_kernel_name, hf]
  · intro hf
    simp [Entry.installed_kernel_name, hf]

/-- C5 witness at a concrete kernel image with a file name. -/
theorem installed_kernel_name_spec_witness :
    (Entry.new ⟨"6.1.0", ["boot", "vmlinuz-6.1"]⟩).installed_kernel_name
        (Schema.legacy ⟨"Serpent", "serpent"⟩)
      = some ("kernel-" ++ "vmlinuz-6.1") :=
  (installed_kernel_name_spec _ _).1 "vmlinuz-6.1" (by decide)

/-- C6: installed_asset_name returns none for every non-InitRD kind under
both schemas; for InitRD it returns some "initrd-{basename}" under Legacy
and some "{version}/{basename}" under Blsforme, and none under either
schema when the asset path has no file name. -/
theorem installed_asset_name_spec (e : Entry) (os_release : OsRelease)
    (asset : AuxiliaryFile) :
    (asset.kind ≠ AuxiliaryKind.initRD →
      e.installed_asset_name (Schema.legacy os_release) asset = none ∧
      e.installed_asset_name (Schema.blsforme os_release) asset = none) ∧
    (∀ f, asset.kind = AuxiliaryKind.initRD →
      asset.path.file_name = some f →
      e.installed_asset_name (Schema.legacy os_release) asset
          = some ("initrd-" ++ f) ∧
      e.installed_asset_name (Schema.blsforme os_release) asset
          = some (e.kernel.version ++ "/" ++ f)) ∧
    (asset.path.file_name = none →
      e.installed_asset_name (Schema.legacy os_release) asset = none ∧
      e.installed_asset_name (Schema.blsforme os_release) asset = none) := by
  refine ⟨?_, ?_, ?_⟩
  · intro hk
    cases hkind : asset.kind with
    | initRD => exact absurd hkind hk
    | other =>
      cases hf : asset.path.file_name <;>
        simp [Entry.installed_asset_name, hkind, hf]
  · intro f hk hf
    simp [Entry.installed_asset_name, hk, hf]
  · intro hf
    cases hkind : asset.kind <;>
      simp [Entry.installed_asset_name, hkind, hf]

/-- C6 witness at a concrete InitRD asset under the Blsforme schema. -/
theorem installed_asset_name_spec_witness :
    (Entry.new ⟨"6.1.0", ["boot", "vmlinuz"]⟩).installed_asset_name
        (Schema.blsforme ⟨"Serpent", "serpent"⟩)
        ⟨["initrd.img"], AuxiliaryKind.initRD⟩
      = some ("6.1.0" ++ "/" ++ "initrd.img") :=
  ((installed_asset_name_spec (Entry.new ⟨"6.1.0", ["boot", "vmlinuz"]⟩)
      ⟨"Serpent", "serpent"⟩ ⟨["initrd.img"], AuxiliaryKind.initRD⟩).2.1
    "initrd.img" rfl (by decide)).2

/-- C10: with_sysroot only sets the sysroot field; the kernel reference
and the cmdline list are unchanged (and the embedding takes no filesystem
because the Rust body performs no I/O). -/
theorem with_sysroot_spec (e : Entry) (p : PathBuf) :
    (e.with_sysroot p).sysroot = some p ∧
    (e.with_sysroot p).kernel = e.kernel ∧
    (e.with_sysroot p).cmdline = e.cmdline :=
  ⟨rfl, rfl, rfl⟩

/-- C3: the output of changed_files is a subsequence of its input,
preserving the relative order of the input pairs. -/
theorem changed_files_preserves_order (fs : FS)
    (files : List (PathBuf × PathBuf)) :
    List.Sublist (changed_files fs files) files := by
  rw [changed_files_eq_filter]
  exact List.filter_sublist files

/-- C9: load_cmdline_snippets only appends to the cmdline list — kernel
and sysroot are unchanged and pre-existing entries keep their order and
place — and the appended suffix (the entries read before any failure)
depends only on the sysroot, so a second load appends the same suffix
again, duplicating it. -/
theorem load_cmdline_snippets_frame (fs : EntryFS) (config : Configuration)
    (e : Entry) :
    (Entry.load_cmdline_snippets fs config e).1.kernel = e.kernel ∧
    (Entry.load_cmdline_snippets fs config e).1.sysroot = e.sysroot ∧
    (Entry.load_cmdline_snippets fs config e).1.cmdline
        = e.cmdline ++ loadAppendix fs config e.sysroot ∧
    Entry.load_cmdline_snippets fs config
        (Entry.load_cmdline_snippets fs config e).1
      = ({ e with cmdline :=
            e.cmdline ++ loadAppendix fs config e.sysroot
              ++ loadAppendix fs config e.sysroot },
         (Entry.load_cmdline_snippets fs config e).2) := by
  rw [load_cmdline_snippets_eq]
  refine ⟨rfl, rfl, rfl, ?_⟩
  rw [load_cmdline_snippets_eq]

/-- C1: any pair whose two files stat with equal size and file type and
whose contents read back byte-identical (hence digest equal) is excluded
from the output of changed_files. -/
theorem changed_files_excludes_identical (fs : FS)
    (files : List (PathBuf × PathBuf)) (s d : PathBuf) (ma mb : Metadata)
    (hsa : fs.stat s = some ma) (hsb : fs.stat d = some mb)
    (hsize : ma.size = mb.size) (htype : ma.ftype = mb.ftype)
    (c : List Nat) (hra : fs.readBytes s = some c)
    (hrb : fs.readBytes d = some c) :
    (s, d) ∉ changed_files fs files := by
  have hfi : files_identical fs Hasher.new s d
      = (Except.ok true, Hasher.reset) := by
    unfold files_identical
    rw [hsa, hsb, hra, hrb]
    simp [hsize, htype, Hasher.update, Hasher.new, Hasher.reset]
  rw [changed_files_eq_filter]
  intro hmem
  have h2 := (List.mem_filter.mp hmem).2
  have hid : pairIdentical fs (s, d) = true := by
    simp [pairIdentical, hfi]
  rw [hid] at h2
  simp at h2

/-- C1 witness at a concrete filesystem with two identical files. -/
theorem changed_files_excludes_identical_witness :
    ((["boot", "vmlinuz"], ["efi", "vmlinuz"]) : PathBuf × PathBuf)
      ∉ changed_files fsIdW [(["boot", "vmlinuz"], ["efi", "vmlinuz"])] :=
  changed_files_excludes_identical fsIdW
    [(["boot", "vmlinuz"], ["efi", "vmlinuz"])]
    ["boot", "vmlinuz"] ["efi", "vmlinuz"]
    { size := 4, ftype := FileType.regular }
    { size := 4, ftype := FileType.regular }
    (by decide) (by decide) rfl rfl
    [7, 7, 7, 7] rfl rfl

/-- C2: a pair whose open/stat fails on either side, or whose sizes or
file types differ, is included in the output; a size or type mismatch is
decided without consulting the content-reading or digest primitives and
with the hasher untouched; and a comparison error never aborts the batch:
the whole output is still the per-pair filter of the whole input. -/
theorem changed_files_includes_unreadable_or_mismatched (fs : FS)
    (files : List (PathBuf × PathBuf)) (s d : PathBuf)
    (hmem : (s, d) ∈ files)
    (hfail : fs.stat s = none ∨ fs.stat d = none ∨
      ∃ ma mb, fs.stat s = some ma ∧ fs.stat d = some mb ∧
        (ma.size ≠ mb.size ∨ ma.ftype ≠ mb.ftype)) :
    (s, d) ∈ changed_files fs files ∧
    (∀ (hasher : Hasher) (readB : PathBuf → Option (List Nat))
        (dig : List Nat → Nat) (ma mb : Metadata),
      fs.stat s = some ma → fs.stat d = some mb →
      ma.size ≠ mb.size ∨ ma.ftype ≠ mb.ftype →
      files_identical ⟨fs.stat, readB, dig⟩ hasher s d
        = (Except.ok false, hasher)) ∧
    changed_files fs files = files.filter (fun p => !pairIdentical fs p) := by
  have hid : pairIdentical fs (s, d) = false := by
    rcases hfail with hsa | hsb | ⟨ma, mb, hsa, hsb, hmis⟩
    · simp [pairIdentical, files_identical, hsa]
    · cases hs : fs.stat s <;>
        simp [pairIdentical, files_identical, hs, hsb]
    · have hfi : files_identical fs Hasher.new s d
          = (Except.ok false, Hasher.new) := by
        unfold files_identical
        rw [hsa, hsb]
        simp [hmis]
      simp [pairIdentical, hfi]
  refine ⟨?_, ?_, changed_files_eq_filter fs files⟩
  · rw [changed_files_eq_filter]
    exact List.mem_filter.mpr ⟨hmem, by simp [hid]⟩
  · intro hasher readB dig ma mb hsa hsb hmis
    unfold files_identical
    rw [show (⟨fs.stat, readB, dig⟩ : FS).stat = fs.stat from rfl,
      hsa, hsb]
    simp [hmis]

/-- C2 witness at a concrete filesystem where every stat fails. -/
theorem changed_files_includes_unreadable_witness :
    ((["boot", "a"], ["boot", "b"]) : PathBuf × PathBuf)
      ∈ changed_files fsErrW [(["boot", "a"], ["boot", "b"])] :=
  (changed_files_includes_unreadable_or_mismatched fsErrW
    [(["boot", "a"], ["boot", "b"])] ["boot", "a"] ["boot", "b"]
    (List.mem_cons_self _ _) (Or.inl rfl)).1

/-- C7: when the resolved cmdline.d directory does not exist the load
succeeds with the entry untouched, and the load errors exactly when the
directory exists and its children cannot all be enumerated and read. -/
theorem load_cmdline_snippets_error_iff (fs : EntryFS)
    (config : Configuration) (e : Entry) :
    (fs.pathExists (cmdlineDir config e.sysroot) = false →
      Entry.load_cmdline_snippets fs config e = (e, Except.ok ())) ∧
    ((Entry.load_cmdline_snippets fs config e).2 = Except.error ()
      ↔ fs.pathExists (cmdlineDir config e.sysroot) = true
          ∧ childFailure fs (cmdlineDir config e.sysroot) = true) := by
  constructor
  · intro hex
    unfold Entry.load_cmdline_snippets
    simp [hex]
  · rw [load_cmdline_snippets_eq]
    unfold loadStatus childFailure
    by_cases hex : fs.pathExists (cmdlineDir config e.sysroot) = true
    · simp only [hex, if_pos, true_and]
      cases hrd : fs.read_dir (cmdlineDir config e.sysroot) with
      | error u => simp
      | ok items => simp [loopStatus_error_iff]
    · simp [hex]

/-- C7 witness: over a filesystem with no cmdline.d directory the load
succeeds and adds nothing. -/
theorem load_cmdline_snippets_error_iff_witness :
    Entry.load_cmdline_snippets efsW { root := ["sysroot"] } entW
      = (entW, Except.ok ()) :=
  (load_cmdline_snippets_error_iff efsW { root := ["sysroot"] } entW).1 rfl

/-- C8: join_insensitive is total; with exactly one case-insensitive
match among the decodable children it joins the on-disk name, with no
match it joins the desired name unchanged, and an unlistable directory
also yields the desired name unchanged (undecodable children having been
dropped from the candidate list by construction). -/
theorem join_insensitive_spec (fs : JoinFS) (base : PathBuf)
    (desired : String) :
    (∀ dir e, fs.read_dir base = some dir →
      (dir.filterMap id).filter
          (fun n => n.toLower == desired.toLower) = [e] →
      join_insensitive fs base desired = base ++ [e]) ∧
    (∀ dir, fs.read_dir base = some dir →
      (∀ n ∈ dir.filterMap id, ¬(n.toLower = desired.toLower)) →
      join_insensitive fs base desired = base ++ [desired]) ∧
    (fs.read_dir base = none →
      join_insensitive fs base desired = base ++ [desired]) := by
  refine ⟨?_, ?_, ?_⟩
  · intro dir e hrd hfil
    simp only [join_insensitive, hrd]
    rw [find_of_filter_singleton _ _ _ hfil]
  · intro dir hrd hnone
    simp only [join_insensitive, hrd]
    have hfind : (dir.filterMap id).find?
        (fun n => n.toLower == desired.toLower) = none := by
      rw [List.find?_eq_none]
      intro n hn
      simp only [beq_iff_eq]
      exact hnone n hn
    rw [hfind]
  · intro hrd
    simp only [join_insensitive, hrd]

/-- C8 witness: a matching on-disk child is reused; elsewhere the desired
name is joined unchanged. -/
theorem join_insensitive_spec_witness :
    join_insensitive jfsW ["efi"] "linux" = ["efi"] ++ ["linux"] ∧
    join_insensitive jfsW ["boot"] "linux" = ["boot"] ++ ["linux"] :=
  ⟨(join_insensitive_spec jfsW ["efi"] "linux").1 [some "linux", none]
      "linux" (by decide) (by simp),
    (join_insensitive_spec jfsW ["boot"] "linux").2.2 (by decide)⟩

end Blsforme
